import Mathlib

/-!
Verification of the Python task-definition updater
(`pkg/definitions/updaters/python/src/`): a shallow embedding of
`location.py`, `utils.py`, `parse.py`, `serialize.py` and `update.py`,
together with theorems settling the specification claims about the
source-locating and surgical-rewrite engine.

Text is modelled as `List Char` (Python `str`, a sequence of code points).
External collaborators that are not part of the repository (the `black`
formatter, the `inflection` library, the interpreter version environment)
are passed in explicitly as function parameters, mirroring how the code
invokes them.
-/

namespace Updater

/-- Python `content.split("\n")`: always returns at least one (possibly
empty) line; a trailing newline yields a trailing empty line. -/
def splitLines : List Char → List (List Char)
  | [] => [[]]
  | c :: rest =>
    if c = '\n' then [] :: splitLines rest
    else
      match splitLines rest with
      | [] => [[c]]
      | l :: ls => (c :: l) :: ls

theorem splitLines_ne_nil (content : List Char) : splitLines content ≠ [] := by
  induction content with
  | nil => simp [splitLines]
  | cons c rest ih =>
    simp only [splitLines]
    split
    · simp
    · cases h : splitLines rest <;> simp

/-- `location.py`: `Location` — a half-open `[start, end)` range of
character offsets into a file's text. -/
structure Location where
  start : Nat
  stop : Nat
deriving Repr, DecidableEq

/-- `location.py` `Location.offset`: 0-based character offset of
(0-based) line `lineno`, column `col_offset`; the Python loop
`for i in range(lineno): offset += len(lines[i]) + 1` followed by
`return offset + col_offset`. -/
def Location.offset (content : List Char) (lineno : Nat) (col_offset : Nat) : Nat :=
  ((splitLines content).take lineno).foldl (fun acc l => acc + (l.length + 1)) 0 + col_offset

/-- Number of bytes in the UTF-8 encoding of one character
(1 to 4, by code-point range). -/
def utf8Size (c : Char) : Nat :=
  if c.val ≤ 0x7f then 1
  else if c.val ≤ 0x7ff then 2
  else if c.val ≤ 0xffff then 3
  else 4

theorem utf8Size_pos (c : Char) : 0 < utf8Size c := by
  unfold utf8Size
  split <;> [simp; split <;> [simp; split <;> simp]]

/-- Total UTF-8 byte length of a string (`len(s.encode("utf-8"))`). -/
def utf8Len (line : List Char) : Nat :=
  (line.map utf8Size).sum

/-- Python `len(bytes(line)[0:k].decode("utf-8"))`: the number of
characters encoded by the first `k` bytes of `line`'s UTF-8 encoding.
Returns `none` when `k` falls strictly inside a character's encoding
(Python raises `UnicodeDecodeError`); clamps when `k` exceeds the total
byte length (Python slices clamp). -/
def decodeUtf8Prefix : List Char → Nat → Option Nat
  | _, 0 => some 0
  | [], _ + 1 => some 0
  | c :: rest, k + 1 =>
    if utf8Size c ≤ k + 1 then
      (decodeUtf8Prefix rest (k + 1 - utf8Size c)).map (· + 1)
    else none

/-- The reported position data of an AST node (`lineno`/`col_offset` and
end markers). `lineno` is 1-based; the column fields are byte offsets as
reported by the parser. -/
structure Pos where
  lineno : Nat
  col_offset : Nat
  end_lineno : Nat
  end_col_offset : Nat
deriving Repr, DecidableEq

/-- `location.py` `Location.from_node`.
The source asserts `node.end_lineno` / `node.end_col_offset` are truthy
(an `end` value of `0` fails the assert), then subtracts 1 from every
field and takes the byte slice `[0 : col_offset + 1]` of the relevant
line; since Python integers are unbounded, `(c - 1) + 1 = c`, so the
slice covers exactly the first `node.col_offset` bytes (for
`col_offset = 0` the slice is `bytes[0:0]` because the stop index is
`-1 + 1 = 0`). That byte-count arithmetic is carried out on `Int` here to
mirror the source; decoding failure or a line index out of range raises
in Python and is `none` here. -/
def Location.fromNode (pos : Pos) (content : List Char) : Option Location := do
  if pos.end_lineno = 0 ∨ pos.end_col_offset = 0 then none
  let lineno := pos.lineno - 1
  let end_lineno := pos.end_lineno - 1
  let lines := splitLines content
  let toStringLen : Nat → Int → Option Nat := fun ln co => do
    let line ← lines.get? ln
    decodeUtf8Prefix line (co + 1).toNat
  let col_offset ← toStringLen lineno ((pos.col_offset : Int) - 1)
  let end_col_offset ← toStringLen end_lineno ((pos.end_col_offset : Int) - 1)
  some ⟨Location.offset content lineno col_offset,
        Location.offset content end_lineno end_col_offset⟩

example : Location.offset "ab\ncd".toList 1 1 = 4 := by decide
example : decodeUtf8Prefix ['a', 'b'] 1 = some 1 := by decide
example : decodeUtf8Prefix ['你', 'b'] 3 = some 1 := by decide
example : decodeUtf8Prefix ['你', 'b'] 2 = none := by decide
example : Location.fromNode ⟨1, 0, 1, 2⟩ "ab".toList = some ⟨0, 2⟩ := by decide

/-- `utils.py` `Import`: one entry of the Import Registry. -/
structure ImportEntry where
  direct : Bool := false
  includes : List String := []
deriving Repr, DecidableEq

/-- `utils.py` `Imports`: insertion-ordered mapping from module name to
`ImportEntry` (`defaultdict(Import)`). -/
structure Imports where
  entries : List (String × ImportEntry) := []
deriving Repr, DecidableEq

/-- `utils.py` `Imports.add`. The `defaultdict` access appends a default
entry for a new module; `direct` is ORed with `include is None`; a
truthy (non-empty), not-yet-present `include` is appended. -/
def Imports.add (i : Imports) (module : String) (inc : Option String) : Imports :=
  let entries :=
    if (i.entries.lookup module).isSome then i.entries
    else i.entries ++ [(module, {})]
  let upd : ImportEntry → ImportEntry := fun e =>
    let e := { e with direct := e.direct || inc.isNone }
    match inc with
    | some s =>
      if s ≠ "" ∧ s ∉ e.includes then { e with includes := e.includes ++ [s] } else e
    | none => e
  ⟨entries.map fun p => if p.1 = module then (p.1, upd p.2) else p⟩

/-- `utils.py` `Imports.has`. -/
def Imports.has (i : Imports) (module : String) (inc : Option String := none) : Bool :=
  match i.entries.lookup module with
  | none => false
  | some e =>
    match inc with
    | none => e.direct
    | some s => decide (s ∈ e.includes)

/-- `utils.py` `get_indent`: the first per-line run of leading blanks/tabs
(`re.findall` of one-or-more space-or-tab anchored at line starts,
MULTILINE), defaulting to four spaces when no line is indented. -/
def getIndent (content : List Char) : List Char :=
  let ms := (splitLines content).filterMap fun l =>
    let w := l.takeWhile fun c => c = ' ' ∨ c = '\t'
    if w.isEmpty then none else some w
  match ms with
  | [] => "    ".toList
  | w :: _ => w

/-- `utils.py` `insert_after`: despite the name, inserts the new pair at
the index of `key` (i.e. immediately before it); `none` when `key` is
absent (Python `list.index` raises `ValueError`). The final
`dict(items)` keeps first-occurrence positions and last-occurrence
values. -/
def insertAfter {α : Type} (d : List (String × α)) (key newKey : String) (v : α) :
    Option (List (String × α)) :=
  match d.findIdx? (fun p => p.1 = key) with
  | none => none
  | some idx =>
    let items := d.take idx ++ [(newKey, v)] ++ d.drop idx
    some (items.foldl
      (fun acc kv =>
        if (acc.lookup kv.1).isSome then
          acc.map fun p => if p.1 = kv.1 then (p.1, kv.2) else p
        else acc ++ [kv])
      [])

/-- `utils.py` `camel_to_snake` (second half of the regex substitution):
an underscore is inserted before each uppercase character that is not at
position 0. -/
def camelToSnakeGo : List Char → List Char
  | [] => []
  | c :: rest =>
    if c.isUpper then '_' :: c :: camelToSnakeGo rest else c :: camelToSnakeGo rest

/-- `utils.py` `camel_to_snake`: underscore before every non-initial
uppercase character, then `.lower()`. -/
def camelToSnake (s : String) : String :=
  let withUnderscores :=
    match s.toList with
    | [] => []
    | c :: rest => c :: camelToSnakeGo rest
  ⟨withUnderscores.map Char.toLower⟩

example : camelToSnake "paramValues" = "param_values" := by decide
example : camelToSnake "restrictCallers" = "restrict_callers" := by decide

/-- Stable insertion into a list sorted by `start`: the new element goes
before the first element whose `start` is not smaller, so elements with
equal keys keep their original relative order. -/
def insertByStart (u : Location × List Char) :
    List (Location × List Char) → List (Location × List Char)
  | [] => [u]
  | v :: vs =>
    if u.1.start ≤ v.1.start then u :: v :: vs else v :: insertByStart u vs

/-- `utils.py` `apply_updates`, step 1: Python's in-place
`list.sort` with key `a[0].start`. Python's sort is a stable ascending
sort; stable sorting has a unique result, realized here by stable
insertion sort. -/
def sortUpdates (us : List (Location × List Char)) : List (Location × List Char) :=
  us.foldr insertByStart []

/-- `utils.py` `apply_updates`, step 2: the assertion loop checking
`update[0].start >= previous[0].end` over consecutive sorted pairs. -/
def chainOkGo : Location × List Char → List (Location × List Char) → Bool
  | _, [] => true
  | prev, v :: vs => (decide (prev.1.stop ≤ v.1.start)) && chainOkGo v vs

def chainOk : List (Location × List Char) → Bool
  | [] => true
  | u :: rest => chainOkGo u rest

/-- One splice `content[0 : loc.start] + value + content[loc.end :]`. -/
def patchOne (content : List Char) (u : Location × List Char) : List Char :=
  content.take u.1.start ++ u.2 ++ content.drop u.1.stop

/-- `utils.py` `apply_updates`: sort ascending by start, assert pairwise
non-overlap (`none` models the `AssertionError` abort), then splice in
reverse order (`for loc, value in reversed(updates)`). -/
def applyUpdates (content : List Char) (updates : List (Location × List Char)) :
    Option (List Char) :=
  let s := sortUpdates updates
  if chainOk s then some (s.foldr (fun u acc => patchOne acc u) content)
  else none

example :
    applyUpdates "hello world".toList
      [(⟨6, 11⟩, "there".toList), (⟨0, 5⟩, "hi".toList)] =
    some "hi there".toList := by decide

example :
    applyUpdates "hello world".toList
      [(⟨4, 11⟩, "there".toList), (⟨0, 5⟩, "hi".toList)] = none := by decide

/-! ### The syntax-tree model (`ast` nodes used by `parse.py`) -/

/-- `ast.Constant` payloads reachable from decorator arguments and
parameter defaults. -/
inductive PyConst where
  | str (s : String)
  | int (n : Int)
  | bool (b : Bool)
  | none

mutual
/-- Expression nodes. Node kinds the parser treats generically
(conditional expressions, comprehensions, binary operations, ...) are
represented by `otherExpr`; `ComputedFieldsParser.generic_visit` fires
for every kind without a dedicated `visit_X` method. -/
inductive PyExpr where
  | constant (v : PyConst) (pos : Pos)
  | name (id : String) (pos : Pos)
  | attribute (value : PyExpr) (attr : String) (pos : Pos)
  | call (func : PyExpr) (keywords : List PyKeyword) (pos : Pos)
  | listE (elts : List PyExpr) (pos : Pos)
  | dictE (keys : List PyExpr) (values : List PyExpr) (pos : Pos)
  | joinedStr (values : List PyExpr) (pos : Pos)
  | formattedValue (value : PyExpr) (pos : Pos)
  | tupleE (elts : List PyExpr) (pos : Pos)
  | ifExp (test : PyExpr) (body : PyExpr) (orelse : PyExpr) (pos : Pos)
  | otherExpr (pos : Pos)

/-- `ast.keyword`: a keyword argument `arg=value` of a call. -/
inductive PyKeyword where
  | mk (arg : Option String) (value : PyExpr)
end

def PyKeyword.arg : PyKeyword → Option String
  | .mk a _ => a

def PyKeyword.value : PyKeyword → PyExpr
  | .mk _ v => v

def PyExpr.pos : PyExpr → Pos
  | .constant _ p => p
  | .name _ p => p
  | .attribute _ _ p => p
  | .call _ _ p => p
  | .listE _ p => p
  | .dictE _ _ p => p
  | .joinedStr _ p => p
  | .formattedValue _ p => p
  | .tupleE _ p => p
  | .ifExp _ _ _ p => p
  | .otherExpr p => p

/-- `ast.arg`: one formal parameter. -/
structure PyArg where
  arg : String
  pos : Pos

/-- `ast.arguments` (see the docs link in `parse.py`). `defaults` aligns
with the trailing positional parameters; `kw_defaults` has one optional
entry per keyword-only parameter. -/
structure PyArguments where
  posonlyargs : List PyArg := []
  args : List PyArg := []
  kwonlyargs : List PyArg := []
  vararg : Option PyArg := Option.none
  kwarg : Option PyArg := Option.none
  defaults : List PyExpr := []
  kw_defaults : List (Option PyExpr) := []

mutual
/-- Statement nodes. `other` covers compound statements the visitor only
recurses through. -/
inductive PyStmt where
  | classDef (body : PyStmts)
  | importStmt (names : List String)
  | importFrom (module : Option String) (names : List String)
  | funcDef (isAsync : Bool) (name : String) (args : PyArguments)
      (decorators : List PyExpr) (body : PyStmts) (pos : Pos)
  | other (children : PyStmts)

inductive PyStmts where
  | nil
  | cons (s : PyStmt) (rest : PyStmts)
end

def PyStmts.ofList : List PyStmt → PyStmts
  | [] => .nil
  | s :: rest => .cons s (PyStmts.ofList rest)

/-! ### `parse.py` -/

/-- The mutable fields of `Parser` (`self._current_class` is tracked as
a flag; `_slug` and `_content` are immutable and passed separately). -/
structure ParserState where
  currentClass : Bool := false
  imports : Imports := {}
  decorator_loc : Option Location := Option.none
  func_def_loc : Option Location := Option.none
  func_name : Option String := Option.none
  is_async : Bool := false
deriving Repr, DecidableEq

/-- `Parser._get_airplane_decorator`'s per-decorator shape test: a call
whose callee is the attribute `task` on the bare name `airplane`. -/
def isAirplaneTaskCall : PyExpr → Bool
  | .call (.attribute (.name id _) attr _) _ _ => id == "airplane" && attr == "task"
  | _ => false

/-- `Parser._get_airplane_decorator`: the first decorator in
`decorator_list` with the recognized shape. -/
def getAirplaneDecorator (decs : List PyExpr) : Option PyExpr :=
  decs.find? isAirplaneTaskCall

def PyExpr.callKeywords : PyExpr → List PyKeyword
  | .call _ kws _ => kws
  | _ => []

/-- `Parser._slug_matches`: the first `slug=` keyword decides — it
matches only when it is a string constant equal to the target (a
non-constant or non-string value compares unequal); with no `slug=`
keyword the declaration's own name is compared. -/
def slugMatches (slug funcName : String) : List PyKeyword → Bool
  | [] => funcName == slug
  | ⟨arg, value⟩ :: rest =>
    if arg = some "slug" then
      match value with
      | .constant (.str s) _ => s == slug
      | _ => false
    else slugMatches slug funcName rest

/-- One `ComputedFieldsParser.visit` dispatch: whether visiting this node
sets `has_computed`. `Constant`, `List` and `Dict` have pass-through
visitors (their children are not visited); `JoinedStr` checks that every
segment is a `Constant`; every other node kind hits the overridden
`generic_visit`, which flags and does not recurse. -/
def computedVisit : PyExpr → Bool
  | .constant _ _ => false
  | .listE _ _ => false
  | .dictE _ _ _ => false
  | .joinedStr values _ =>
    values.any fun v => match v with
      | .constant _ _ => false
      | _ => true
  | _ => true

/-- `Parser._has_computed_fields`: visit every keyword value of the call,
then every default; `has_computed` is sticky. -/
def hasComputedFields (keywords : List PyKeyword) (defaults : List PyExpr) : Bool :=
  let afterKeywords := keywords.foldl (fun acc k => acc || computedVisit k.value) false
  defaults.foldl (fun acc d => acc || computedVisit d) afterKeywords

/-- `Parser._generic_visit_func_def`, minus the final `generic_visit`
into the body (performed by the caller when the returned flag is true).
Follows the source step by step: record `func_name` and `func_def_loc`
unconditionally, then decorator matching, the computed-fields guard
(`ValueError`), and `decorator_loc` widening by the leading `@`. -/
def visitFuncDefCore (slug : String) (content : List Char) (st : ParserState)
    (isAsync : Bool) (name : String) (args : PyArguments) (decs : List PyExpr)
    (pos : Pos) : Except String (ParserState × Bool) := do
  if st.currentClass then
    return (st, false)
  let st := { st with func_name := some name }
  let func_loc ← match Location.fromNode pos content with
    | some l => pure l
    | Option.none => throw "from_node: missing end position"
  let decl := if isAsync then "async def(" else "def ("
  let argsInit := func_loc.start + decl.length + name.length
  let defaults := args.defaults ++ args.kw_defaults.filterMap id
  let argPositions : List Pos :=
    args.args.map PyArg.pos ++ args.posonlyargs.map PyArg.pos ++
    args.kwonlyargs.map PyArg.pos ++ args.defaults.map PyExpr.pos ++
    defaults.map PyExpr.pos ++
    ([args.vararg, args.kwarg].filterMap id).map PyArg.pos
  let bounds ← argPositions.foldlM
    (fun (acc : Nat × Nat) p => do
      match Location.fromNode p content with
      | some loc => pure (min acc.1 loc.start, max acc.2 loc.stop)
      | Option.none => throw "from_node: missing end position")
    (argsInit, argsInit)
  let argsEnd := match (content.drop bounds.2).findIdx? (· = ')') with
    | some j => bounds.2 + j
    | Option.none => bounds.2
  let st := { st with func_def_loc := some ⟨func_loc.start, argsEnd + (")").length⟩ }
  match getAirplaneDecorator decs with
  | Option.none => return (st, true)
  | some dec =>
    if ¬ slugMatches slug name dec.callKeywords then
      return (st, true)
    else if hasComputedFields dec.callKeywords defaults then
      throw "Tasks that use computed fields must be updated manually."
    else do
      let dloc ← match Location.fromNode dec.pos content with
        | some l => pure l
        | Option.none => throw "from_node: missing end position"
      return ({ st with
                decorator_loc := some ⟨dloc.start - 1, dloc.stop⟩
                is_async := isAsync }, false)

mutual
/-- The `ast.NodeVisitor` dispatch of `Parser` over one statement. -/
def visitStmt (slug : String) (content : List Char) (st : ParserState) :
    PyStmt → Except String ParserState
  | .classDef body => do
    let st ← visitStmts slug content { st with currentClass := true } body
    .ok { st with currentClass := false }
  | .importStmt names =>
    match names with
    | [] => .error "IndexError: node.names[0]"
    | n :: _ => .ok { st with imports := st.imports.add n Option.none }
  | .importFrom module names =>
    match module with
    | Option.none => .error "AssertionError: node.module is not None"
    | some m =>
      match names with
      | [] => .error "IndexError: node.names[0]"
      | n :: _ => .ok { st with imports := st.imports.add m (some n) }
  | .funcDef isAsync name args decs body pos => do
    let r ← visitFuncDefCore slug content st isAsync name args decs pos
    if r.2 then visitStmts slug content r.1 body else .ok r.1
  | .other children => visitStmts slug content st children

/-- `generic_visit` over a statement sequence. -/
def visitStmts (slug : String) (content : List Char) (st : ParserState) :
    PyStmts → Except String ParserState
  | .nil => .ok st
  | .cons s rest => do
    let st ← visitStmt slug content st s
    visitStmts slug content st rest
end

/-- `Parser(slug, content)` followed by `p.visit(ast.parse(content))`:
fresh state, then a traversal of the module's top-level statements. -/
def parseModule (slug : String) (content : List Char) (stmts : PyStmts) :
    Except String ParserState :=
  visitStmts slug content {} stmts

/-- A file containing a matching task declaration followed by a plain
helper function:
line 1 `import airplane`, line 3 `@airplane.task()`, line 4
`def my_task():`, line 5 its body, line 7 `def helper():`, line 8
its body. -/
def c1Content : List Char :=
  "import airplane\n\n@airplane.task()\ndef my_task():\n    pass\n\ndef helper():\n    pass\n".toList

/-- The syntax tree of `c1Content` with the positions CPython reports
(1-based line numbers, byte columns). -/
def c1Stmts : PyStmts := .ofList [
  .importStmt ["airplane"],
  .funcDef false "my_task" {}
    [.call (.attribute (.name "airplane" ⟨3, 1, 3, 9⟩) "task" ⟨3, 1, 3, 14⟩) [] ⟨3, 1, 3, 16⟩]
    (.cons (.other .nil) .nil) ⟨4, 0, 5, 8⟩,
  .funcDef false "helper" {} [] (.cons (.other .nil) .nil) ⟨7, 0, 8, 8⟩]

example :
    parseModule "my_task" c1Content c1Stmts =
      .ok { currentClass := false
            imports := ⟨[("airplane", ⟨true, []⟩)]⟩
            decorator_loc := some ⟨17, 33⟩
            func_def_loc := some ⟨59, 71⟩
            func_name := some "helper"
            is_async := false } := by rfl

/-! ### `update.py` `get_import_loc` -/

/-- Python `haystack.index(needle)` (also the regex search for a fixed
pattern): index of the first occurrence, `none` when absent. -/
def findSubstrIdx (hay needle : List Char) : Option Nat :=
  if needle.isPrefixOf hay then some 0
  else
    match hay with
    | [] => Option.none
    | _ :: rest => (findSubstrIdx rest needle).map (· + 1)

/-- The docstring-skipping prefix of `get_import_loc`: locate the
docstring text in the file (`content.index` raises `ValueError` when the
cleaned docstring does not occur), then the lazy match of
any-text-up-to `\x22\x22\x22` (DOTALL) ending at the first closing
triple quote; the resulting `lineno` is `len(content[0:i].split("\n"))`,
i.e. one plus the number of newlines before that point. When the module
has no (or an empty, hence falsy) docstring or the regex does not match,
`lineno` stays 0. -/
def docSkipLineno (content : List Char) (docs : Option (List Char)) : Except String Nat :=
  match docs with
  | Option.none => .ok 0
  | some d =>
    if d = [] then .ok 0
    else
      match findSubstrIdx content d with
      | Option.none => .error "ValueError: substring not found"
      | some i =>
        match findSubstrIdx (content.drop i) ['\"', '\"', '\"'] with
        | Option.none => .ok 0
        | some j =>
          let iEnd := i + (j + 3)
          .ok ((content.take iEnd).count '\n' + 1)

/-- `update.py` `get_import_loc`. The scan
`for i, line in enumerate(lines, start=lineno)` walks the lines from the
top of the file while labelling them starting at the docstring-derived
`lineno`, and stops at the first line that is empty or does not begin
with a comment marker, keeping that (shifted) label. -/
def getImportLoc (content : List Char) (docs : Option (List Char)) : Except String Location := do
  let base ← docSkipLineno content docs
  let lines := splitLines content
  let lineno :=
    match lines.findIdx? (fun l => l.isEmpty || !(l.head? = some '#')) with
    | some idx => base + idx
    | Option.none => base
  .ok ⟨Location.offset content lineno 0, Location.offset content lineno 0⟩

/-! ### The value model for task definitions (JSON-derived Python data) -/

mutual
/-- A Python value reachable from a deserialized task definition, plus
`SerializedValue` (`serialize.py`) for already-rendered fragments.
Values outside this universe (e.g. floats, arbitrary objects) are
`vother`; `Serializer._serialize` raises on them. -/
inductive PyValue where
  | vnone
  | vstr (s : String)
  | vint (n : Int)
  | vbool (b : Bool)
  | vlist (elems : PyValues)
  | vdict (pairs : PyValuePairs)
  | vserialized (s : String)
  | vother (tag : String)

inductive PyValues where
  | nil
  | cons (v : PyValue) (rest : PyValues)

inductive PyValuePairs where
  | nil
  | cons (key : PyValue) (value : PyValue) (rest : PyValuePairs)
end

def PyValues.ofList : List PyValue → PyValues
  | [] => .nil
  | v :: rest => .cons v (PyValues.ofList rest)

def PyValues.toList : PyValues → List PyValue
  | .nil => []
  | .cons v rest => v :: rest.toList

def PyValuePairs.toList : PyValuePairs → List (PyValue × PyValue)
  | .nil => []
  | .cons k v rest => (k, v) :: rest.toList

/-- Python truthiness (`if value:`) on the modelled value universe;
objects without `__bool__`/`__len__` (such as `SerializedValue`) are
truthy. -/
def pyTruthy : PyValue → Bool
  | .vnone => false
  | .vstr s => !(s = "")
  | .vint n => !(n = 0)
  | .vbool b => b
  | .vlist .nil => false
  | .vlist _ => true
  | .vdict .nil => false
  | .vdict _ => true
  | .vserialized _ => true
  | .vother _ => true

/-- Membership test used by Python `key in somedict` for string keys. -/
def PyValuePairs.hasKey (pairs : PyValuePairs) (key : String) : Bool :=
  match pairs with
  | .nil => false
  | .cons (.vstr s) _ rest => s == key || rest.hasKey key
  | .cons _ _ rest => rest.hasKey key

/-- Python `somedict[key]` for string keys. -/
def PyValuePairs.get : PyValuePairs → String → Option PyValue
  | .nil, _ => Option.none
  | .cons (.vstr s) v rest, key => if s = key then some v else rest.get key
  | .cons _ _ rest, key => rest.get key

/-- A task-definition mapping / parameter record: an insertion-ordered
string-keyed dictionary. -/
abbrev TaskDef := List (String × PyValue)

/-- Python `dict(items)`: first-occurrence position, last-occurrence
value. -/
def pyDictOfItems (items : List (String × PyValue)) : List (String × PyValue) :=
  items.foldl
    (fun acc kv =>
      if (acc.lookup kv.1).isSome then
        acc.map fun p => if p.1 = kv.1 then (p.1, kv.2) else p
      else acc ++ [kv])
    []

/-- Python `somedict.pop(key)` (ignoring the returned value). -/
def TaskDef.pop (d : TaskDef) (key : String) : TaskDef :=
  d.filter fun p => !(p.1 = key)

/-- Python `somedict[key] = value` for a present key. -/
def TaskDef.setKey (d : TaskDef) (key : String) (v : PyValue) : TaskDef :=
  d.map fun p => if p.1 = key then (p.1, v) else p

/-! ### `serialize.py` -/

/-- The collaborators `serialize.py` uses that are not part of the
repository: the `black` formatter (`black.format_str` with default
mode), `inflection.humanize`, the interpreter minor version
(`sys.version_info.minor`) and the testing environment flag
`TESTING_ONLY_IGNORE_CURRENT_PYTHON_VERSION == "true"`. -/
structure ExternalCtx where
  blackFormat : String → String
  humanize : String → String
  currentMinor : Nat
  ignoreCurrentVersion : Bool

/-- One line of `format_code`'s re-indentation: the longest leading run
of 4-space groups is replaced by that many copies of the file's
indentation unit (leftover spaces beyond a multiple of four stay). -/
def reindentLine (indent : List Char) (line : List Char) : List Char :=
  let leading := (line.takeWhile (· = ' ')).length
  let groups := leading / 4
  if groups = 0 then line
  else (List.replicate groups indent).flatten ++ line.drop (groups * 4)

/-- `serialize.py` `format_code`: run the external formatter, strip the
trailing newline it appends, and replace each formatter-emitted
indentation unit with the user's. -/
def formatCode (ctx : ExternalCtx) (code : String) (indent : List Char) : String :=
  let formatted := (ctx.blackFormat code).toList.dropLast
  ⟨List.intercalate ['\n'] ((splitLines formatted).map (reindentLine indent))⟩

/-- `'"' + value.replace('"', '\\"') + '"'` in `Serializer._serialize`
(only double quotes are escaped). -/
def escapeQuotes (s : String) : String :=
  ⟨s.toList.foldr (fun c acc => if c = '"' then '\\' :: '"' :: acc else c :: acc) []⟩

mutual
/-- `Serializer._serialize`: the recursive literal renderer.
`vother` values hit the final `raise ValueError`. -/
def pySerialize : PyValue → Except String String
  | .vserialized s => .ok s
  | .vnone => .ok "None"
  | .vstr s => .ok ("\"" ++ escapeQuotes s ++ "\"")
  | .vint n => .ok (toString n)
  | .vbool b => .ok (if b then "True" else "False")
  | .vlist elems => do
    let parts ← pySerializeValues elems
    .ok ("[" ++ String.intercalate "," parts ++ "]")
  | .vdict pairs => do
    let kvs ← pySerializePairs pairs
    .ok ("\x7b" ++ String.intercalate "," kvs ++ "\x7d")
  | .vother tag => .error ("unable to serialize value: " ++ tag)

def pySerializeValues : PyValues → Except String (List String)
  | .nil => .ok []
  | .cons v rest => do
    let s ← pySerialize v
    let ss ← pySerializeValues rest
    .ok (s :: ss)

def pySerializePairs : PyValuePairs → Except String (List String)
  | .nil => .ok []
  | .cons k v rest => do
    let ks ← pySerialize k
    let vs ← pySerialize v
    let ss ← pySerializePairs rest
    .ok ((ks ++ ": " ++ vs) :: ss)
end

/-- Code-point-wise lexicographic string order (Python string `<=`). -/
def charListLe : List Char → List Char → Bool
  | [], _ => true
  | _ :: _, [] => false
  | a :: as, b :: bs =>
    if a.val < b.val then true
    else if b.val < a.val then false
    else charListLe as bs

def strLeB (a b : String) : Bool :=
  charListLe a.toList b.toList

/-- Stable insertion sort with a boolean `le`, realizing Python's stable
ascending `sorted`. -/
def insertSortedBy (le : α → α → Bool) (x : α) : List α → List α
  | [] => [x]
  | y :: ys => if le x y then x :: y :: ys else y :: insertSortedBy le x ys

def sortBy (le : α → α → Bool) (l : List α) : List α :=
  l.foldr (insertSortedBy le) []

def sortStrings : List String → List String :=
  sortBy strLeB

/-- Python `int(s)` restricted to decimal digit strings. -/
def parseDigits : List Char → Option Nat
  | [] => Option.none
  | l => l.foldlM (fun acc c => if c.isDigit then some (acc * 10 + (c.toNat - '0'.toNat)) else Option.none) 0

def pyIntOfString (s : String) : Except String Nat :=
  match parseDigits s.toList with
  | some n => .ok n
  | Option.none => .error ("ValueError: invalid literal for int(): " ++ s)

/-- `Serializer._is_py_version_gte`: strip the `3.` prefix of both the
threshold and the project version; outside the testing override, compare
against the minimum of the project version and the interpreter actually
running the serializer. -/
def isPyVersionGte (ctx : ExternalCtx) (pyVersion version : String) : Except String Bool := do
  let minVersion ← pyIntOfString ⟨version.toList.drop 2⟩
  let projectVersion : Option Nat ←
    if pyVersion = "" then pure Option.none
    else do
      let n ← pyIntOfString ⟨pyVersion.toList.drop 2⟩
      pure (some n)
  if ctx.ignoreCurrentVersion then
    match projectVersion with
    | Option.none => .error "expected an airplane.yaml python version"
    | some n => .ok (decide (minVersion ≤ n))
  else
    let n := match projectVersion with
      | some n => min n ctx.currentMinor
      | Option.none => ctx.currentMinor
    .ok (decide (minVersion ≤ n))

/-- `datetime.strptime(value, "%Y-%m-%dT%H:%M:%S(.%f)")` (stdlib,
modelled): split into date and time components; `%f` right-pads its
digits to microseconds. Returns
(year, month, day, hour, minute, second, microsecond). -/
def splitOnChar (sep : Char) : List Char → List (List Char)
  | [] => [[]]
  | c :: rest =>
    if c = sep then [] :: splitOnChar sep rest
    else
      match splitOnChar sep rest with
      | [] => [[c]]
      | l :: ls => (c :: l) :: ls

def parseStrptime (s : List Char) (hasDot : Bool) :
    Except String (Nat × Nat × Nat × Nat × Nat × Nat × Nat) := do
  let bad : Except String (Nat × Nat × Nat × Nat × Nat × Nat × Nat) :=
    .error "ValueError: time data does not match format"
  match splitOnChar 'T' s with
  | [datePart, timePart] =>
    match splitOnChar '-' datePart with
    | [ys, ms, ds] =>
      let secAndMicro : Except String (List Char × Nat) :=
        if hasDot then
          match splitOnChar '.' timePart with
          | [hms, frac] =>
            if frac.length = 0 ∨ 6 < frac.length then .error "ValueError: bad microseconds"
            else
              match parseDigits frac with
              | some f => .ok (hms, f * 10 ^ (6 - frac.length))
              | Option.none => .error "ValueError: bad microseconds"
          | _ => .error "ValueError: bad microseconds"
        else .ok (timePart, 0)
      let (hms, micro) ← secAndMicro
      match splitOnChar ':' hms with
      | [hs, mins, ss] =>
        match parseDigits ys, parseDigits ms, parseDigits ds,
              parseDigits hs, parseDigits mins, parseDigits ss with
        | some y, some mo, some d, some h, some mi, some sec =>
          .ok (y, mo, d, h, mi, sec, micro)
        | _, _, _, _, _, _ => bad
      | _ => bad
    | _ => bad
  | _ => bad

/-- `datetime.fromisoformat` on a plain `YYYY-MM-DD` date string
(stdlib, modelled). -/
def parseIsoDate (s : List Char) : Except String (Nat × Nat × Nat) :=
  match splitOnChar '-' s with
  | [ys, ms, ds] =>
    match parseDigits ys, parseDigits ms, parseDigits ds with
    | some y, some mo, some d => .ok (y, mo, d)
    | _, _, _ => .error "ValueError: invalid isoformat string"
  | _ => .error "ValueError: invalid isoformat string"

def PyValuePairs.ofList : List (PyValue × PyValue) → PyValuePairs
  | [] => .nil
  | (k, v) :: rest => .cons k v (PyValuePairs.ofList rest)

/-- `Serializer._serialize_kwargs`: snake-cased key, `=`, rendered
value, comma-joined. -/
def serializeKwargs (kwargs : TaskDef) : Except String String := do
  let parts ← kwargs.mapM fun kv => do
    let s ← pySerialize kv.2
    pure (camelToSnake kv.1 ++ "=" ++ s)
  pure (String.intercalate ", " parts)

/-- `Serializer._serialize_param_value`. The `param.get("type")` string
drives the three special renderings (a non-string `type` value never
equals the compared literals, so it behaves like an unknown type);
everything else falls through to `_serialize`. Raises where Python
would: `value.index("Z")` on a Z-less datetime string, and
`"config" in value` on a non-container. -/
def serializeParamValue (imp : Imports) (value : PyValue) (param : Option TaskDef) :
    Except String (String × Imports) := do
  let tStr : Option String :=
    match param with
    | some p =>
      match p.lookup "type" with
      | some (.vstr s) => some s
      | _ => Option.none
    | Option.none => Option.none
  if tStr = some "datetime" then
    match value with
    | .vstr s => do
      let chars := s.toList
      match chars.findIdx? (· = 'Z') with
      | Option.none => throw "ValueError: substring not found"
      | some iz =>
        let cut := chars.take iz
        let hasDot := cut.contains '.'
        let (y, mo, d, h, mi, sec, micro) ← parseStrptime cut hasDot
        let imp := (imp.add "datetime" (some "timezone")).add "datetime" (some "datetime")
        let components := toString y ++ ", " ++ toString mo ++ ", " ++ toString d ++ ", " ++
          toString h ++ ", " ++ toString mi ++ ", " ++ toString sec
        let components := if 0 < micro then components ++ ", " ++ toString micro else components
        pure ("datetime(" ++ components ++ ", tzinfo=timezone.utc)", imp)
    | _ => do
      let r ← pySerialize value
      pure (r, imp)
  else if tStr = some "date" then
    match value with
    | .vstr s => do
      let (y, mo, d) ← parseIsoDate s.toList
      let imp := imp.add "datetime" (some "date")
      pure ("date(" ++ toString y ++ ", " ++ toString mo ++ ", " ++ toString d ++ ")", imp)
    | _ => do
      let r ← pySerialize value
      pure (r, imp)
  else if tStr = some "configvar" then
    match value with
    | .vstr s => do
      let r ← pySerialize (.vstr s)
      pure ("airplane.ConfigVar(" ++ r ++ ")", imp)
    | .vdict pairs =>
      match pairs.get "config" with
      | some (.vstr c) => do
        let r ← pySerialize (.vstr c)
        pure ("airplane.ConfigVar(" ++ r ++ ")", imp)
      | _ => do
        let r ← pySerialize value
        pure (r, imp)
    | .vlist elems =>
      if elems.toList.any (fun v => match v with | .vstr s => s == "config" | _ => false) then
        throw "TypeError: list indices must be integers"
      else do
        let r ← pySerialize value
        pure (r, imp)
    | _ => throw "TypeError: argument is not iterable"
  else do
    let r ← pySerialize value
    pure (r, imp)

/-- `Serializer._serialize_env_var` (an entry must be a mapping; the
`config` key wins over `value`; a missing `value` key raises
`KeyError`). -/
def serializeEnvVar (key : PyValue) (value : PyValue) : Except String String := do
  let name ← pySerialize key
  match value with
  | .vdict pairs =>
    match pairs.get "config" with
    | some cv => do
      let config ← pySerialize cv
      pure ("airplane.EnvVar(name=" ++ name ++ ", config_var_name=" ++ config ++ ")")
    | Option.none =>
      match pairs.get "value" with
      | some v => do
        let vs ← pySerialize v
        pure ("airplane.EnvVar(name=" ++ name ++ ", value=" ++ vs ++ ")")
      | Option.none => throw "KeyError: value"
  | _ => throw "TypeError: env var entry is not a mapping"

/-- `Serializer._serialize_param_option`: a mapping with a `label` key
becomes a `LabeledOption` (a missing `value` key raises `KeyError`);
anything else is rendered as a parameter value. -/
def serializeParamOption (imp : Imports) (opt : PyValue) (param : TaskDef) :
    Except String (String × Imports) := do
  match opt with
  | .vdict pairs =>
    if pairs.hasKey "label" then
      match pairs.get "label", pairs.get "value" with
      | some lv, some vv => do
        let label ← pySerialize lv
        let (value, imp) ← serializeParamValue imp vv (some param)
        pure ("airplane.LabeledOption(label=" ++ label ++ ", value=" ++ value ++ ")", imp)
      | _, _ => throw "KeyError: value"
    else serializeParamValue imp opt (some param)
  | .vstr s =>
    if (findSubstrIdx s.toList "label".toList).isSome then
      throw "TypeError: string indices must be integers"
    else serializeParamValue imp opt (some param)
  | .vlist elems =>
    if elems.toList.any (fun v => match v with | .vstr s => s == "label" | _ => false) then
      throw "TypeError: list indices must be integers"
    else serializeParamValue imp opt (some param)
  | _ => throw "TypeError: argument is not iterable"

/-- `param.get("default", None) is not None` in `serialize.py`. -/
def defaultIsNotNone (param : TaskDef) : Bool :=
  match param.lookup "default" with
  | some .vnone => false
  | Option.none => false
  | some _ => true

/-- `param.get("required", True)` under `not ...` (truthiness). -/
def requiredTruthy (param : TaskDef) : Bool :=
  match param.lookup "required" with
  | Option.none => true
  | some v => pyTruthy v

/-- `has_default` in `Serializer._serialize_parameters`:
`param.get("default", None) is not None or not param.get("required", True)`. -/
def hasDefaultFlag (param : TaskDef) : Bool :=
  defaultIsNotNone param || !requiredTruthy param

/-- `Serializer._serialize_parameter`. Follows the source order:
type mapping, date/datetime imports, optional wrapping (version
dependent), `Annotated` wrapping of extra fields (with options rendered
first), then default attachment. -/
def serializeParameter (ctx : ExternalCtx) (pyVersion : String) (imp : Imports)
    (param : TaskDef) : Except String (String × Imports) := do
  let tVal ← match param.lookup "type" with
    | some v => pure v
    | Option.none => throw "KeyError: type"
  let pyTypeOpt : Option String :=
    match tVal with
    | .vstr "shorttext" => some "str"
    | .vstr "longtext" => some "airplane.LongText"
    | .vstr "sql" => some "airplane.SQL"
    | .vstr "boolean" => some "bool"
    | .vstr "integer" => some "int"
    | .vstr "float" => some "float"
    | .vstr "upload" => some "airplane.File"
    | .vstr "date" => some "date"
    | .vstr "datetime" => some "datetime"
    | .vstr "configvar" => some "airplane.ConfigVar"
    | _ => Option.none
  let pyType ← match pyTypeOpt with
    | some t => pure t
    | Option.none =>
      throw ("Unknown parameter type: " ++
        (match tVal with | .vstr s => s | _ => "<non-string>"))
  let imp :=
    if pyType = "date" then imp.add "datetime" (some "date")
    else if pyType = "datetime" then imp.add "datetime" (some "datetime")
    else imp
  let required := requiredTruthy param
  let (pyType, imp) ←
    if !required then do
      let gte ← isPyVersionGte ctx pyVersion "3.10"
      if gte then pure (pyType ++ " | None", imp)
      else pure ("Optional[" ++ pyType ++ "]", imp.add "typing" (some "Optional"))
    else pure (pyType, imp)
  let slug ← match param.lookup "slug" with
    | some (.vstr s) => pure s
    | Option.none => pure ""
    | some _ => throw "AttributeError: humanize expects a string"
  let nameMatches : Bool :=
    match param.lookup "name" with
    | some (.vstr n) => ctx.humanize slug == n
    | Option.none => ctx.humanize slug == ""
    | some _ => false
  let conditionalFields := if nameMatches then ["name"] else []
  let annotatedParam := param.filter fun p =>
    !((["slug", "type", "default", "required"] ++ conditionalFields).contains p.1)
  let (pyType, imp) ←
    if annotatedParam.isEmpty then pure (pyType, imp)
    else do
      let (annotatedParam, imp) ←
        if (annotatedParam.lookup "options").isSome then
          match annotatedParam.lookup "options" with
          | some (.vlist opts) => do
            let (rendered, imp) ← opts.toList.foldlM
              (fun (acc : List PyValue × Imports) opt => do
                let (s, imp) ← serializeParamOption acc.2 opt param
                pure (acc.1 ++ [PyValue.vserialized s], imp))
              ([], imp)
            pure (TaskDef.setKey annotatedParam "options" (.vlist (.ofList rendered)), imp)
          | _ => throw "TypeError: options is not a list"
        else pure (annotatedParam, imp)
      let gte9 ← isPyVersionGte ctx pyVersion "3.9"
      let imp :=
        if gte9 then imp.add "typing" (some "Annotated")
        else imp.add "typing_extensions" (some "Annotated")
      let kwargs ← serializeKwargs annotatedParam
      pure ("Annotated[" ++ pyType ++ ", airplane.ParamConfig(" ++ kwargs ++ ")]", imp)
  if defaultIsNotNone param || !required then do
    let (dv, imp) ← serializeParamValue imp
      ((param.lookup "default").getD .vnone) (some param)
    pure (slug ++ ": " ++ pyType ++ " = " ++ dv, imp)
  else
    pure (slug ++ ": " ++ pyType, imp)

/-- One JSON parameter record: a mapping with string keys. -/
def pairsToTaskDef : PyValuePairs → Except String TaskDef
  | .nil => .ok []
  | .cons (.vstr k) v rest => do
    let d ← pairsToTaskDef rest
    pure ((k, v) :: d)
  | .cons _ _ _ => .error "TypeError: mapping key is not a string"

def toParamDicts : PyValues → Except String (List TaskDef)
  | .nil => .ok []
  | .cons (.vdict pairs) rest => do
    let d ← pairsToTaskDef pairs
    let ds ← toParamDicts rest
    pure (d :: ds)
  | .cons _ _ => .error "TypeError: parameter record is not a mapping"

/-- `Serializer._serialize_parameters`, up to the final `", ".join`:
the `has_default` mask is computed per parameter, parameters whose mask
is false are rendered first in original order, then those whose mask is
true in original order. -/
def serializeParametersList (ctx : ExternalCtx) (pyVersion : String) (imp : Imports)
    (params : Option PyValue) : Except String (List String × Imports) := do
  match params with
  | Option.none => pure ([], imp)
  | some pv =>
    if !pyTruthy pv then pure ([], imp)
    else
      match pv with
      | .vlist elems => do
        let ps ← toParamDicts elems
        let withFlags := ps.map fun p => (p, hasDefaultFlag p)
        let ordered :=
          (withFlags.filter fun x => !x.2) ++ (withFlags.filter fun x => x.2)
        ordered.foldlM
          (fun (acc : List String × Imports) x => do
            let (s, imp) ← serializeParameter ctx pyVersion acc.2 x.1
            pure (acc.1 ++ [s], imp))
          ([], imp)
      | _ => throw "TypeError: parameters is not a list"

/-- `Serializer._serialize_parameters`. -/
def serializeParameters (ctx : ExternalCtx) (pyVersion : String) (imp : Imports)
    (params : Option PyValue) : Except String (String × Imports) := do
  let (out, imp) ← serializeParametersList ctx pyVersion imp params
  pure (String.intercalate ", " out, imp)

/-- `Serializer.serialize_func_def`: render the signature, attach a
temporary `pass` body so the formatter accepts it, format, then strip
the temporary suffix (whose length accounts for the re-indented body
line). -/
def serializeFuncDef (ctx : ExternalCtx) (pyVersion : String) (indent : List Char)
    (imp : Imports) (funcName : String) (params : Option PyValue) (isAsync : Bool) :
    Except String (String × Imports) := do
  let (serializedParams, imp) ← serializeParameters ctx pyVersion imp params
  let decl := if isAsync then "async def" else "def"
  let out := decl ++ " " ++ funcName ++ "(" ++ serializedParams ++ ")"
  let n := formatCode ctx (out ++ ":\n    pass") indent
  pure (⟨n.toList.take (n.toList.length - (":\npass".length + indent.length))⟩, imp)

/-- One iteration of the `serialize_imports` loop body: a whole-module
line when directly required and absent, then a from-import line for the
sorted missing symbols. -/
def importLineStep (expected existing : Imports) (acc : List String) (name : String) :
    List String :=
  match expected.entries.lookup name with
  | Option.none => acc
  | some e =>
    let acc :=
      if e.direct && !(existing.has name) then acc ++ ["import " ++ name] else acc
    let includes :=
      sortStrings (e.includes.filter fun inc => !(existing.has name (some inc)))
    if includes.isEmpty then acc
    else acc ++ ["from " ++ name ++ " import " ++ String.intercalate ", " includes]

/-- `Serializer.serialize_imports`, up to the final join/format: the
loop over the sorted expected module names. -/
def serializeImportLines (expected existing : Imports) : List String :=
  (sortStrings (expected.entries.map fun p => p.1)).foldl
    (importLineStep expected existing) []

/-- `Serializer.serialize_imports`. -/
def serializeImports (ctx : ExternalCtx) (indent : List Char)
    (expected existing : Imports) : String :=
  formatCode ctx (String.intercalate "\n" (serializeImportLines expected existing)) indent

/-- `Serializer._serialize_param_values`: each binding is rendered with
the parameter record of matching slug (if any), then the whole mapping
is rendered by `_serialize`. -/
def serializeParamValues (imp : Imports) (values : PyValuePairs) (params : PyValue) :
    Except String (String × Imports) := do
  let paramDicts ← match params with
    | .vlist elems => toParamDicts elems
    | _ => throw "TypeError: parameters is not a list"
  let rec go (vs : PyValuePairs) (imp : Imports) :
      Except String (List (PyValue × PyValue) × Imports) :=
    match vs with
    | .nil => pure ([], imp)
    | .cons (.vstr slug) value rest => do
      let param := paramDicts.find? fun p =>
        match p.lookup "slug" with
        | some (.vstr s) => s == slug
        | _ => false
      let (s, imp) ← serializeParamValue imp value param
      let (items, imp) ← go rest imp
      pure (((PyValue.vstr slug, PyValue.vserialized s)) :: items, imp)
    | .cons _ _ _ => throw "TypeError: binding key is not a string"
  let (items, imp) ← go values imp
  let s ← pySerialize (.vdict (.ofList items))
  pure (s, imp)

/-- `Serializer._serialize_schedule`: replace a `paramValues` entry by
its rendered form in place, then emit every entry as a snake-cased
keyword argument of `airplane.Schedule`. -/
def serializeSchedule (imp : Imports) (slug : String) (schedule : TaskDef)
    (params : PyValue) : Except String (String × Imports) := do
  let (schedule, imp) ←
    match schedule.lookup "paramValues" with
    | some (.vdict values) => do
      let (s, imp) ← serializeParamValues imp values params
      pure (TaskDef.setKey schedule "paramValues" (.vserialized s), imp)
    | some _ => throw "TypeError: paramValues is not a mapping"
    | Option.none => pure (schedule, imp)
  let slugStr ← pySerialize (.vstr slug)
  let kwargs ← serializeKwargs schedule
  pure ("airplane.Schedule(slug=" ++ slugStr ++ ", " ++ kwargs ++ ")", imp)

/-- `Serializer._serialize_resource`. -/
def serializeResource (slug : PyValue) (aliasName : Option String) : Except String String := do
  let slugStr ← pySerialize slug
  let aliasEqSlug : Bool :=
    match slug with
    | .vstr s => match aliasName with | some a => s == a | Option.none => false
    | _ => false
  match aliasName with
  | Option.none => pure ("airplane.Resource(" ++ slugStr ++ ")")
  | some a =>
    if aliasEqSlug then pure ("airplane.Resource(" ++ slugStr ++ ")")
    else do
      let aliasStr ← pySerialize (.vstr a)
      pure ("airplane.Resource(" ++ slugStr ++ ", alias=" ++ aliasStr ++ ")")

/-- `Serializer._serialize_resources`: standardize on alias-to-slug
pairs (a plain list maps each slug to itself), then render the list of
constructor calls. -/
def serializeResources (value : PyValue) : Except String String := do
  let items : List (String × PyValue) ←
    match value with
    | .vlist elems => do
      let raw ← elems.toList.foldlM
        (fun acc v =>
          match v with
          | .vstr s => pure (acc ++ [(s, PyValue.vstr s)])
          | _ => throw "TypeError: resource slug is not a string")
        []
      pure (pyDictOfItems raw)
    | .vdict pairs => do
      let d ← pairsToTaskDef pairs
      pure d
    | _ => throw "TypeError: resources is not a list or mapping"
  let rendered ← items.mapM fun av => do
    let s ← serializeResource av.2 (some av.1)
    pure (PyValue.vserialized s)
  pySerialize (.vlist (.ofList rendered))

/-- The env-var rewrite loop of `Serializer.serialize_task_def`. -/
def envVarsToList : PyValuePairs → Except String (List PyValue)
  | .nil => .ok []
  | .cons k v rest => do
    let s ← serializeEnvVar k v
    let ss ← envVarsToList rest
    pure (PyValue.vserialized s :: ss)

/-- The schedules rewrite loop of `Serializer.serialize_task_def`. -/
def schedulesToList (params : PyValue) (imp : Imports) :
    PyValuePairs → Except String (List PyValue × Imports)
  | .nil => .ok ([], imp)
  | .cons (.vstr slug) sched rest => do
    match sched with
    | .vdict sp => do
      let sd ← pairsToTaskDef sp
      let (s, imp) ← serializeSchedule imp slug sd params
      let (ss, imp) ← schedulesToList params imp rest
      pure (PyValue.vserialized s :: ss, imp)
    | _ => throw "TypeError: schedule is not a mapping"
  | .cons _ _ _ => .error "TypeError: schedule key is not a string"

/-- `Serializer.serialize_task_def`: rewrite the python-specific
`envVars` block, resources and schedules into pre-serialized fragments,
drop `parameters` (conveyed by the function signature) and a
default-valued `timeout`, then render the keyword arguments and format
`_airplane.task(...)`, re-attaching the decorator marker over the
placeholder. -/
def serializeTaskDef (ctx : ExternalCtx) (indent : List Char)
    (imp : Imports) (taskDef : TaskDef) : Except String (String × Imports) := do
  let taskDef ←
    match taskDef.lookup "python" with
    | Option.none => pure taskDef
    | some pv => do
      let taskDef ←
        match pv with
        | .vdict ppairs =>
          if ppairs.hasKey "envVars" then
            match ppairs.get "envVars" with
            | some (.vdict evs) => do
              let envList ← envVarsToList evs
              match insertAfter taskDef "python" "envVars" (.vlist (.ofList envList)) with
              | some d => pure d
              | Option.none => throw "ValueError: key is not in dict"
            | some _ => throw "TypeError: envVars is not a mapping"
            | Option.none => pure taskDef
          else pure taskDef
        | .vstr s =>
          if (findSubstrIdx s.toList "envVars".toList).isSome then
            throw "TypeError: string indices must be integers"
          else pure taskDef
        | .vlist elems =>
          if elems.toList.any (fun v => match v with | .vstr s => s == "envVars" | _ => false) then
            throw "TypeError: list indices must be integers"
          else pure taskDef
        | _ => throw "TypeError: argument is not iterable"
      pure (TaskDef.pop taskDef "python")
  let taskDef ←
    match taskDef.lookup "resources" with
    | Option.none => pure taskDef
    | some rv => do
      let s ← serializeResources rv
      pure (TaskDef.setKey taskDef "resources" (.vserialized s))
  let (taskDef, imp) ←
    match taskDef.lookup "schedules" with
    | Option.none => pure (taskDef, imp)
    | some sv => do
      let params := (taskDef.lookup "parameters").getD (.vlist .nil)
      match sv with
      | .vdict spairs => do
        let (rendered, imp) ← schedulesToList params imp spairs
        pure (TaskDef.setKey taskDef "schedules" (.vlist (.ofList rendered)), imp)
      | _ => throw "TypeError: schedules is not a mapping"
  let taskDef :=
    if (taskDef.lookup "parameters").isSome then TaskDef.pop taskDef "parameters"
    else taskDef
  let taskDef :=
    match taskDef.lookup "timeout" with
    | some (.vint n) => if n = 3600 then TaskDef.pop taskDef "timeout" else taskDef
    | _ => taskDef
  let kwargs ← serializeKwargs taskDef
  let out := "_airplane.task(" ++ kwargs ++ ")"
  pure (⟨'@' :: (formatCode ctx out indent).toList.drop 1⟩, imp)

/-! ### `update.py` `update` and the command layer (`main`) -/

/-- `update.py` lines 34-39: if the located function name matches the
old or the new slug, the identifier conveys the slug — emit the new
slug as the identifier and drop the explicit `slug` argument from the
definition; otherwise keep both. -/
def slugCoupling (funcName slug newSlug : String) (taskDef : TaskDef) :
    String × TaskDef :=
  if funcName = slug ∨ funcName = newSlug then (newSlug, TaskDef.pop taskDef "slug")
  else (funcName, taskDef)

/-- `update.py` `update`: read and parse are supplied by the caller as
`content`/`stmts`/`docs`; the rest follows the source: assert the new
slug, run the Parser, raise `TaskNotFound` when any located field is
missing, decide whether the identifier conveys the slug (dropping the
explicit `slug` argument when it does), serialize the three fragments
(threading the Serializer's expected-import registry in source order),
and apply the three patches. The returned text is not written here. -/
def updateFn (ctx : ExternalCtx) (content : List Char) (stmts : PyStmts)
    (docs : Option (List Char)) (slug : String) (taskDef : TaskDef)
    (pyVersion : String := "") : Except String (List Char) := do
  let newSlug : String :=
    match taskDef.lookup "slug" with
    | some (.vstr s) => s
    | _ => ""
  if newSlug = "" then
    throw "AssertionError: new_slug is empty"
  let p ← parseModule slug content stmts
  let (decoratorLoc, funcName0, funcDefLoc) ←
    match p.decorator_loc, p.func_name, p.func_def_loc with
    | some d, some n, some f => pure (d, n, f)
    | _, _, _ => throw ("Could not find task with slug \"" ++ slug ++ "\"")
  let (funcName, taskDef) := slugCoupling funcName0 slug newSlug taskDef
  let indent := getIndent content
  let imp : Imports := Imports.add {} "airplane" Option.none
  let (serializedTaskDef, imp) ← serializeTaskDef ctx indent imp taskDef
  let (serializedFuncDef, imp) ← serializeFuncDef ctx pyVersion indent imp funcName
    (taskDef.lookup "parameters") p.is_async
  let serializedImports := serializeImports ctx indent imp p.imports
  let serializedImports :=
    if 0 < serializedImports.length then serializedImports ++ "\n" else serializedImports
  let importLoc ← getImportLoc content docs
  match applyUpdates content
      [(decoratorLoc, serializedTaskDef.toList),
       (funcDefLoc, serializedFuncDef.toList),
       (importLoc, serializedImports.toList)] with
  | some out => pure out
  | Option.none => throw "AssertionError: updates overlap"

/-- The host file system visible to `main`. -/
abbrev FileSystem := String → Option (List Char)

def FileSystem.write (fs : FileSystem) (file : String) (content : List Char) : FileSystem :=
  fun f => if f = file then some content else fs f

/-- The external CPython parser: `ast.parse` plus
`ast.get_docstring` on the resulting module. -/
abbrev PyParseFn := List Char → Except String (PyStmts × Option (List Char))

/-- `update.py` `main`, `can_update` branch: run `update` with the
synthetic definition `{"slug": slug}`, catch every exception as
infeasible, and print the boolean; nothing is ever written. -/
def runCanUpdate (ctx : ExternalCtx) (pyParse : PyParseFn) (fs : FileSystem)
    (file slug : String) : FileSystem × Bool :=
  let result : Except String (List Char) := do
    let content ← match fs file with
      | some c => pure c
      | Option.none => throw "FileNotFoundError"
    let (stmts, docs) ← pyParse content
    updateFn ctx content stmts docs slug [("slug", .vstr slug)]
  (fs, result.isOk)

/-- `update.py` `main`, `update` branch: run `update` and write the
fully produced text back; on failure nothing is written and the error
is reported. -/
def runUpdateCommand (ctx : ExternalCtx) (pyParse : PyParseFn) (fs : FileSystem)
    (file slug : String) (taskDef : TaskDef) (pyVersion : String) :
    FileSystem × Option String :=
  let result : Except String (List Char) := do
    let content ← match fs file with
      | some c => pure c
      | Option.none => throw "FileNotFoundError"
    let (stmts, docs) ← pyParse content
    updateFn ctx content stmts docs slug taskDef pyVersion
  match result with
  | .ok newText => (fs.write file newText, Option.none)
  | .error e => (fs, some e)

/-! ## Claim C5: the Patch Applier -/

/-- Spec-side: the expected output of patch application described by the
claim — each patched span is replaced by its replacement and every
unpatched range is copied unchanged, walking the sorted patches left to
right from `pos`. -/
def spliceSpec (content : List Char) (pos : Nat) :
    List (Location × List Char) → List Char
  | [] => content.drop pos
  | u :: rest =>
    (content.drop pos).take (u.1.start - pos) ++ u.2 ++
      spliceSpec content u.1.stop rest

/-- Spec-side: the sorted patch list is non-overlapping starting at
`pos`. -/
def ChainFrom : Nat → List (Location × List Char) → Prop
  | _, [] => True
  | pos, u :: rest => pos ≤ u.1.start ∧ ChainFrom u.1.stop rest

/-- Spec-side: some patch's start is strictly less than the previous
patch's end (as adjacent entries of the list). -/
def HasOverlap (l : List (Location × List Char)) : Prop :=
  ∃ pre a b post, l = pre ++ a :: b :: post ∧ b.1.start < a.1.stop

theorem mem_insertByStart {a u : Location × List Char}
    {l : List (Location × List Char)} :
    a ∈ insertByStart u l ↔ a = u ∨ a ∈ l := by
  induction l with
  | nil => simp [insertByStart]
  | cons v vs ih =>
    simp only [insertByStart]
    split
    · simp
    · simp only [List.mem_cons, ih]
      tauto

theorem mem_sortUpdates {a : Location × List Char}
    {us : List (Location × List Char)} :
    a ∈ sortUpdates us ↔ a ∈ us := by
  induction us with
  | nil => simp [sortUpdates]
  | cons u rest ih =>
    show a ∈ insertByStart u (sortUpdates rest) ↔ _
    rw [mem_insertByStart, ih]
    simp

theorem chainOkGo_true_chain {u : Location × List Char}
    {rest : List (Location × List Char)} (h : chainOkGo u rest = true) :
    ChainFrom u.1.stop rest := by
  induction rest generalizing u with
  | nil => trivial
  | cons v vs ih =>
    simp only [chainOkGo, Bool.and_eq_true, decide_eq_true_eq] at h
    exact ⟨h.1, ih h.2⟩

theorem chainOk_true_chain {s : List (Location × List Char)}
    (h : chainOk s = true) : ChainFrom 0 s := by
  cases s with
  | nil => trivial
  | cons u rest => exact ⟨Nat.zero_le _, chainOkGo_true_chain h⟩

theorem chainOkGo_false_iff {u : Location × List Char}
    {rest : List (Location × List Char)} :
    chainOkGo u rest = false ↔
      ∃ pre a b post, u :: rest = pre ++ a :: b :: post ∧ b.1.start < a.1.stop := by
  induction rest generalizing u with
  | nil =>
    simp only [chainOkGo]
    constructor
    · intro h
      cases h
    · rintro ⟨pre, a, b, post, heq, -⟩
      have := congrArg List.length heq
      simp at this
      omega
  | cons v vs ih =>
    simp only [chainOkGo, Bool.and_eq_false_iff, decide_eq_false_iff_not, Nat.not_le]
    constructor
    · rintro (hlt | hrec)
      · exact ⟨[], u, v, vs, rfl, hlt⟩
      · obtain ⟨pre, a, b, post, heq, hlt⟩ := ih.mp hrec
        exact ⟨u :: pre, a, b, post, by simp [heq], hlt⟩
    · rintro ⟨pre, a, b, post, heq, hlt⟩
      cases pre with
      | nil =>
        simp only [List.nil_append, List.cons.injEq] at heq
        obtain ⟨rfl, rfl, -⟩ := heq
        exact Or.inl hlt
      | cons p pre =>
        simp only [List.cons_append, List.cons.injEq] at heq
        exact Or.inr (ih.mpr ⟨pre, a, b, post, heq.2, hlt⟩)

theorem chainOk_false_iff {s : List (Location × List Char)} :
    chainOk s = false ↔ HasOverlap s := by
  cases s with
  | nil =>
    simp only [chainOk, HasOverlap]
    constructor
    · intro h
      cases h
    · rintro ⟨pre, a, b, post, heq, -⟩
      have := congrArg List.length heq
      simp at this
      omega
  | cons u rest => exact chainOkGo_false_iff

theorem foldr_patch_eq (content : List Char) :
    ∀ (us : List (Location × List Char)) (pos : Nat),
      (∀ u ∈ us, u.1.start ≤ u.1.stop ∧ u.1.stop ≤ content.length) →
      ChainFrom pos us →
      us.foldr (fun u acc => patchOne acc u) content =
        content.take pos ++ spliceSpec content pos us := by
  intro us
  induction us with
  | nil =>
    intro pos _ _
    simp [spliceSpec]
  | cons u rest ih =>
    intro pos hb hc
    obtain ⟨hpos, hcrest⟩ := hc
    obtain ⟨hse, hel⟩ := hb u (List.mem_cons_self u rest)
    have hT := ih u.1.stop (fun v hv => hb v (List.mem_cons_of_mem u hv)) hcrest
    show patchOne (rest.foldr (fun u acc => patchOne acc u) content) u = _
    rw [hT]
    unfold patchOne
    have hlen : (content.take u.1.stop).length = u.1.stop := by
      simp [List.length_take, Nat.min_eq_left hel]
    have htake :
        (content.take u.1.stop ++ spliceSpec content u.1.stop rest).take u.1.start =
          content.take u.1.start := by
      rw [List.take_append_eq_append_take, hlen, Nat.sub_eq_zero_of_le hse,
        List.take_zero, List.append_nil, List.take_take, Nat.min_eq_left hse]
    have hdrop :
        (content.take u.1.stop ++ spliceSpec content u.1.stop rest).drop u.1.stop =
          spliceSpec content u.1.stop rest := List.drop_left' hlen
    rw [htake, hdrop]
    show content.take u.1.start ++ u.2 ++ spliceSpec content u.1.stop rest =
      content.take pos ++ spliceSpec content pos (u :: rest)
    have hsplit : content.take u.1.start =
        content.take pos ++ (content.drop pos).take (u.1.start - pos) := by
      rw [← List.take_add, Nat.add_sub_cancel' hpos]
    rw [spliceSpec, hsplit]
    simp [List.append_assoc]

/-- C5: for every patch list over a text (each span within the
`0 ≤ start ≤ end ≤ len` invariant of Locations), the applier aborts
exactly when, after the stable ascending sort by start offset, some
patch starts strictly before the previous patch's end (adjacent patches
are accepted); and on success the output is the original text with each
patched span replaced by its replacement and all unpatched ranges
unchanged. -/
theorem apply_updates_spec_theorem (content : List Char)
    (us : List (Location × List Char))
    (hb : ∀ u ∈ us, u.1.start ≤ u.1.stop ∧ u.1.stop ≤ content.length) :
    (applyUpdates content us = Option.none ↔ HasOverlap (sortUpdates us)) ∧
    (∀ out, applyUpdates content us = some out →
      out = spliceSpec content 0 (sortUpdates us)) := by
  unfold applyUpdates
  by_cases h : chainOk (sortUpdates us)
  · rw [if_pos h]
    constructor
    · constructor
      · intro hnone
        cases hnone
      · intro hover
        rw [← chainOk_false_iff] at hover
        rw [h] at hover
        cases hover
    · intro out hout
      have hres := Option.some.inj hout
      have hfold := foldr_patch_eq content (sortUpdates us) 0
        (fun v hv => hb v (mem_sortUpdates.mp hv)) (chainOk_true_chain h)
      rw [← hres, hfold, List.take_zero, List.nil_append]
  · rw [if_neg h]
    constructor
    · simp only [true_iff]
      exact chainOk_false_iff.mp (Bool.eq_false_iff.mpr h ▸ rfl)
    · intro out hout
      cases hout

/-- Witness for C5 at a concrete text and patch pair. -/
theorem apply_updates_spec_witness :
    (∀ u ∈ ([(⟨6, 11⟩, "there".toList), (⟨0, 5⟩, "hi".toList)] :
        List (Location × List Char)),
      u.1.start ≤ u.1.stop ∧ u.1.stop ≤ ("hello world".toList).length) ∧
    ((applyUpdates "hello world".toList
        [(⟨6, 11⟩, "there".toList), (⟨0, 5⟩, "hi".toList)] = Option.none ↔
      HasOverlap (sortUpdates
        [(⟨6, 11⟩, "there".toList), (⟨0, 5⟩, "hi".toList)])) ∧
     (∀ out, applyUpdates "hello world".toList
        [(⟨6, 11⟩, "there".toList), (⟨0, 5⟩, "hi".toList)] = some out →
      out = spliceSpec "hello world".toList 0 (sortUpdates
        [(⟨6, 11⟩, "there".toList), (⟨0, 5⟩, "hi".toList)]))) :=
  ⟨by decide, apply_updates_spec_theorem _ _ (by decide)⟩

/-! ## Claim C6: the Offset Model -/

theorem foldl_add_len (xs : List (List Char)) (acc : Nat) :
    xs.foldl (fun acc l => acc + (l.length + 1)) acc =
      acc + (xs.map (fun l => l.length + 1)).sum := by
  induction xs generalizing acc with
  | nil => simp
  | cons x rest ih =>
    simp only [List.foldl_cons, List.map_cons, List.sum_cons, ih]
    omega

theorem sum_take_map {α : Type} (f : α → Nat) (d : α) :
    ∀ (n : Nat) (xs : List α), n ≤ xs.length →
      ((xs.take n).map f).sum = ∑ i ∈ Finset.range n, f (xs.getD i d) := by
  intro n
  induction n with
  | zero => simp
  | succ n ih =>
    intro xs hn
    have hlt : n < xs.length := Nat.lt_of_succ_le hn
    rw [List.take_succ, List.map_append, List.sum_append, Finset.sum_range_succ,
      ih xs (Nat.le_of_lt hlt)]
    have hsome : xs[n]? = some xs[n] := List.getElem?_eq_getElem hlt
    have hgetD : xs.getD n d = xs[n] := by
      rw [List.getD_eq_getElem?_getD, hsome, Option.getD_some]
    rw [hsome, hgetD]
    simp

theorem utf8Len_nil : utf8Len [] = 0 := rfl

theorem utf8Len_cons (c : Char) (xs : List Char) :
    utf8Len (c :: xs) = utf8Size c + utf8Len xs := by
  simp [utf8Len]

/-- A byte count that is the encoded length of a character-prefix
decodes back to exactly that character count. -/
theorem decode_boundary :
    ∀ (k : Nat) (line : List Char), k ≤ line.length →
      decodeUtf8Prefix line (utf8Len (line.take k)) = some k := by
  intro k
  induction k with
  | zero =>
    intro line _
    simp [utf8Len, decodeUtf8Prefix]
  | succ k ih =>
    intro line hk
    match line with
    | [] => simp at hk
    | c :: rest =>
      have hk' : k ≤ rest.length := Nat.le_of_succ_le_succ hk
      have hpos := utf8Size_pos c
      rw [List.take_succ_cons, utf8Len_cons]
      obtain ⟨m, hm⟩ : ∃ m, utf8Size c + utf8Len (rest.take k) = m + 1 :=
        ⟨utf8Size c + utf8Len (rest.take k) - 1, by omega⟩
      rw [hm]
      have hle : utf8Size c ≤ m + 1 := by omega
      simp only [decodeUtf8Prefix, if_pos hle]
      have harg : m + 1 - utf8Size c = utf8Len (rest.take k) := by omega
      rw [harg, ih rest hk']
      rfl

/-- C6: `offset` sums, over all preceding lines, the line length in
characters plus one for the newline, and adds the column; and
`from_node`, at byte columns that are the encoded length of a character
prefix of the relevant line (as the parser reports), produces exactly
the character-unit offsets of those prefix boundaries. -/
theorem offset_model_correct
    (content : List Char) (lineno col : Nat)
    (pos : Pos) (k1 k2 : Nat) (lineA lineB : List Char)
    (hline : lineno ≤ (splitLines content).length)
    (hend1 : pos.end_lineno ≠ 0) (hend2 : pos.end_col_offset ≠ 0)
    (hA : (splitLines content).get? (pos.lineno - 1) = some lineA)
    (hB : (splitLines content).get? (pos.end_lineno - 1) = some lineB)
    (hk1 : k1 ≤ lineA.length) (hk2 : k2 ≤ lineB.length)
    (hc1 : pos.col_offset = utf8Len (lineA.take k1))
    (hc2 : pos.end_col_offset = utf8Len (lineB.take k2)) :
    Location.offset content lineno col =
      (∑ i ∈ Finset.range lineno, (((splitLines content).getD i []).length + 1)) + col ∧
    Location.fromNode pos content =
      some ⟨Location.offset content (pos.lineno - 1) k1,
            Location.offset content (pos.end_lineno - 1) k2⟩ := by
  constructor
  · unfold Location.offset
    rw [foldl_add_len, Nat.zero_add,
      sum_take_map (fun l => l.length + 1) [] lineno (splitLines content) hline]
  · unfold Location.fromNode
    have hcast : ∀ n : Nat, (((n : Int) - 1) + 1).toNat = n := fun n => by omega
    have hnot : ¬(pos.end_lineno = 0 ∨ pos.end_col_offset = 0) := by
      simp [hend1, hend2]
    simp only [Option.bind_eq_bind]
    rw [if_neg hnot]
    simp only [Option.pure_def, Option.some_bind, hA, hB, hc1, hc2, hcast]
    rw [decode_boundary k1 lineA hk1, decode_boundary k2 lineB hk2]
    rfl

/-- Witness for C6: a line holding the multi-byte literal `"你好"`. -/
theorem offset_model_correct_witness :
    ((1 : Nat) ≤ (splitLines "s = \"你好\"\npass".toList).length ∧
     (1 : Nat) ≠ 0 ∧ (12 : Nat) ≠ 0 ∧
     (splitLines "s = \"你好\"\npass".toList).get? 0 = some "s = \"你好\"".toList ∧
     (splitLines "s = \"你好\"\npass".toList).get? 0 = some "s = \"你好\"".toList ∧
     4 ≤ "s = \"你好\"".toList.length ∧ 8 ≤ "s = \"你好\"".toList.length ∧
     (4 : Nat) = utf8Len ("s = \"你好\"".toList.take 4) ∧
     (12 : Nat) = utf8Len ("s = \"你好\"".toList.take 8)) ∧
    (Location.offset "s = \"你好\"\npass".toList 1 0 =
      (∑ i ∈ Finset.range 1,
        (((splitLines "s = \"你好\"\npass".toList).getD i []).length + 1)) + 0 ∧
     Location.fromNode ⟨1, 4, 1, 12⟩ "s = \"你好\"\npass".toList =
      some ⟨Location.offset "s = \"你好\"\npass".toList 0 4,
            Location.offset "s = \"你好\"\npass".toList 0 8⟩) :=
  ⟨⟨by decide, by decide, by decide, by decide, by decide, by decide, by decide,
    by decide, by decide⟩,
   offset_model_correct "s = \"你好\"\npass".toList 1 0 ⟨1, 4, 1, 12⟩ 4 8
     "s = \"你好\"".toList "s = \"你好\"".toList
     (by decide) (by decide) (by decide) (by decide) (by decide)
     (by decide) (by decide) (by decide) (by decide)⟩

/-! ## Claim C3: slug matching with a non-literal slug argument -/

/-- C3 counterexample: a declaration named `foo` whose decorator
carries the non-literal slug argument `slug=ENV`. Matching the target
slug `foo` fails — `_slug_matches` returns the `isinstance` conjunction
for the first `slug=` keyword and never falls back to the identifier —
so the parser records no decorator location ("declaration not found"),
although the claim says the identifier fallback matches it. -/
theorem slug_fallback_counterexample :
    slugMatches "foo" "foo"
      [PyKeyword.mk (some "slug") (.name "ENV" ⟨3, 20, 3, 23⟩)] = false ∧
    parseModule "foo" "import airplane\n\n@airplane.task(slug=ENV)\ndef foo():\n    pass\n".toList
      (.ofList [
        .importStmt ["airplane"],
        .funcDef false "foo" {}
          [.call (.attribute (.name "airplane" ⟨3, 1, 3, 9⟩) "task" ⟨3, 1, 3, 14⟩)
            [PyKeyword.mk (some "slug") (.name "ENV" ⟨3, 20, 3, 23⟩)] ⟨3, 1, 3, 25⟩]
          (.cons (.other .nil) .nil) ⟨4, 0, 5, 8⟩]) =
      .ok { currentClass := false
            imports := ⟨[("airplane", ⟨true, []⟩)]⟩
            decorator_loc := Option.none
            func_def_loc := some ⟨42, 51⟩
            func_name := some "foo"
            is_async := false } :=
  ⟨rfl, rfl⟩

/-- C3 amended: the first `slug=` keyword of the decorator call decides
matching — it matches exactly when it is a string literal equal to the
target slug; the declaration identifier is compared only when no
`slug=` keyword is present at all. -/
theorem slug_matching_amended (slug funcName : String) (kws : List PyKeyword) :
    slugMatches slug funcName kws =
      match kws.find? (fun k => k.arg = some "slug") with
      | some k =>
        match k.value with
        | .constant (.str s) _ => s == slug
        | _ => false
      | Option.none => funcName == slug := by
  induction kws with
  | nil => rfl
  | cons k rest ih =>
    cases k with
    | mk arg value =>
      by_cases h : arg = some "slug"
      · subst h
        rw [List.find?_cons_of_pos _ (by simp [PyKeyword.arg])]
        simp [slugMatches, PyKeyword.value]
      · rw [List.find?_cons_of_neg _ (by simp [PyKeyword.arg, h])]
        simp only [slugMatches, if_neg h]
        exact ih

/-! ## Claim C4: the Import Registry -/

/-- C4 counterexample: a single from-import statement bringing in two
symbols. Only the first alias (`node.names[0]`) is recorded, so the
registry lacks the second symbol although the statement imports it — so
re-running `update` on a file whose required `Optional` import lives in
such a statement would redundantly emit a new import line. -/
theorem import_registry_counterexample :
    (parseModule "t" []
        (.ofList [.importFrom (some "typing") ["Annotated", "Optional"]])).map
      (fun st => st.imports.has "typing" (some "Optional")) = .ok false ∧
    (parseModule "t" []
        (.ofList [.importFrom (some "typing") ["Annotated", "Optional"]])).map
      (fun st => st.imports.has "typing" (some "Annotated")) = .ok true :=
  ⟨rfl, rfl⟩

theorem lookup_mem {α : Type} {l : List (String × α)} {k : String} {v : α}
    (h : l.lookup k = some v) : (k, v) ∈ l := by
  induction l with
  | nil => cases h
  | cons p rest ih =>
    obtain ⟨a, b⟩ := p
    rw [List.lookup] at h
    by_cases hk : k = a
    · subst hk
      rw [beq_self_eq_true] at h
      simp only [Option.some.injEq] at h
      subst h
      exact List.mem_cons_self _ _
    · rw [beq_eq_false_iff_ne.mpr hk] at h
      exact List.mem_cons_of_mem _ (ih h)

/-- C4 amended: the registry records, per import statement, the module
name of the statement's first alias (further aliases of the same
statement are dropped), and per from-import statement its first
imported symbol; and whenever every expected import is already present
in the existing registry, the emitted import-line list is empty. -/
theorem import_registry_amended :
    (∀ (slug : String) (content : List Char) (st : ParserState) (m n : String)
        (rest : List String),
      visitStmt slug content st (.importFrom (some m) (n :: rest)) =
        .ok { st with imports := st.imports.add m (some n) } ∧
      visitStmt slug content st (.importStmt (n :: rest)) =
        .ok { st with imports := st.imports.add n Option.none }) ∧
    (∀ expected existing : Imports,
      (∀ p ∈ expected.entries,
        (p.2.direct = true → existing.has p.1 = true) ∧
        (∀ inc ∈ p.2.includes, existing.has p.1 (some inc) = true)) →
      serializeImportLines expected existing = []) := by
  constructor
  · intro slug content st m n rest
    exact ⟨rfl, rfl⟩
  · intro expected existing h
    have hstep : ∀ (acc : List String) (name : String),
        importLineStep expected existing acc name = acc := by
      intro acc name
      unfold importLineStep
      cases hl : expected.entries.lookup name with
      | none => rfl
      | some e =>
        obtain ⟨hdir, hinc⟩ := h (name, e) (lookup_mem hl)
        have hfilter :
            e.includes.filter (fun inc => !(existing.has name (some inc))) = [] := by
          rw [List.filter_eq_nil_iff]
          intro inc hmem
          simp [hinc inc hmem]
        simp only [hfilter]
        by_cases hd : e.direct
        · rw [hdir hd]
          simp [sortStrings, sortBy]
        · simp [hd, sortStrings, sortBy]
    unfold serializeImportLines
    generalize sortStrings (expected.entries.map fun p => p.1) = keys
    induction keys with
    | nil => rfl
    | cons name ks ih =>
      rw [List.foldl_cons, hstep]
      exact ih

/-- Witness for C4's amended import minimality at a concrete registry
pair (and one recording step). -/
theorem import_registry_amended_witness :
    (∀ p ∈ (⟨[("airplane", ⟨true, []⟩), ("typing", ⟨false, ["Optional"]⟩)]⟩ : Imports).entries,
      (p.2.direct = true →
        (⟨[("airplane", ⟨true, []⟩), ("typing", ⟨true, ["Annotated", "Optional"]⟩)]⟩ : Imports).has p.1 = true) ∧
      (∀ inc ∈ p.2.includes,
        (⟨[("airplane", ⟨true, []⟩), ("typing", ⟨true, ["Annotated", "Optional"]⟩)]⟩ : Imports).has p.1 (some inc) = true)) ∧
    serializeImportLines
      ⟨[("airplane", ⟨true, []⟩), ("typing", ⟨false, ["Optional"]⟩)]⟩
      ⟨[("airplane", ⟨true, []⟩), ("typing", ⟨true, ["Annotated", "Optional"]⟩)]⟩ = [] :=
  ⟨by decide, import_registry_amended.2 _ _ (by decide)⟩

/-! ## Claim C2: computed-field detection -/

/-- C2 counterexample. Left: a decorator keyword whose value is a list
containing a function call — a computed expression nested inside a
sequence — is NOT flagged (the `List` visitor passes without visiting
children), so the Locator does not signal manual-update-required and
the file is rewritten. Right: a tuple of literals IS flagged (no
`visit_Tuple` exists, so the flagging `generic_visit` fires), although
it is composed recursively of literals only. -/
theorem computed_fields_shallow_counterexample :
    hasComputedFields
      [PyKeyword.mk (some "restrict_callers")
        (.listE [.call (.name "f" ⟨1, 1, 1, 2⟩) [] ⟨1, 1, 1, 4⟩] ⟨1, 0, 1, 5⟩)] [] = false ∧
    hasComputedFields
      [PyKeyword.mk (some "constraints")
        (.tupleE [.constant (.int 1) ⟨1, 1, 1, 2⟩] ⟨1, 0, 1, 4⟩)] [] = true :=
  ⟨rfl, rfl⟩

theorem foldl_or_eq {α : Type} (f : α → Bool) :
    ∀ (l : List α) (b : Bool), l.foldl (fun acc x => acc || f x) b = (b || l.any f) := by
  intro l
  induction l with
  | nil => simp
  | cons x rest ih =>
    intro b
    simp [ih, Bool.or_assoc]

/-- C2 amended: the classifier looks only at the top node kind of each
decorator keyword value and each parameter default — `Constant`, `List`
and `Dict` (regardless of their contents) and interpolations whose
segments are all constants count as literal, every other kind as
computed — and the flag is raised exactly when some such top node is of
computed kind; when the parse pass raises (as it does on a computed
field of the matched declaration), `update` propagates the error and
produces no output text, and the update command leaves the file system
unchanged. -/
theorem computed_fields_amended :
    (∀ (kws : List PyKeyword) (ds : List PyExpr),
      hasComputedFields kws ds = true ↔
        (∃ k ∈ kws, computedVisit k.value = true) ∨
        (∃ d ∈ ds, computedVisit d = true)) ∧
    (∀ (ctx : ExternalCtx) (content : List Char) (stmts : PyStmts)
        (docs : Option (List Char)) (slug s : String) (td : TaskDef)
        (pv e : String),
      td.lookup "slug" = some (.vstr s) → s ≠ "" →
      parseModule slug content stmts = .error e →
      updateFn ctx content stmts docs slug td pv = .error e) ∧
    (∀ (ctx : ExternalCtx) (pyParse : PyParseFn) (fs : FileSystem)
        (file slug : String) (td : TaskDef) (pv : String) (content : List Char)
        (stmts : PyStmts) (docs : Option (List Char)) (e : String),
      fs file = some content → pyParse content = .ok (stmts, docs) →
      updateFn ctx content stmts docs slug td pv = .error e →
      runUpdateCommand ctx pyParse fs file slug td pv = (fs, some e)) := by
  refine ⟨?_, ?_, ?_⟩
  · intro kws ds
    unfold hasComputedFields
    rw [foldl_or_eq, foldl_or_eq]
    simp [List.any_eq_true]
  · intro ctx content stmts docs slug s td pv e hslug hs hparse
    unfold updateFn
    rw [hslug]
    rw [if_neg hs]
    rw [hparse]
    rfl
  · intro ctx pyParse fs file slug td pv content stmts docs e hfs hparse hupd
    unfold runUpdateCommand
    rw [hfs]
    simp only [bind, Except.bind, pure, Except.pure, hparse, hupd]

/-- A file whose matched declaration has the computed decorator
argument `name=NAME`. -/
def computedContent : List Char :=
  "import airplane\n\n@airplane.task(name=NAME)\ndef my_task():\n    pass\n".toList

def computedStmts : PyStmts := .ofList [
  .importStmt ["airplane"],
  .funcDef false "my_task" {}
    [.call (.attribute (.name "airplane" ⟨3, 1, 3, 9⟩) "task" ⟨3, 1, 3, 14⟩)
      [PyKeyword.mk (some "name") (.name "NAME" ⟨3, 20, 3, 24⟩)] ⟨3, 1, 3, 25⟩]
    (.cons (.other .nil) .nil) ⟨4, 0, 5, 8⟩]

/-- A fixed instantiation of the external collaborators for concrete
evaluations: a formatter that appends the newline `black` always adds
and otherwise returns its input, the identity humanization, interpreter
minor version 8, no testing override. -/
def ctxId : ExternalCtx :=
  { blackFormat := fun s => s ++ "\n"
    humanize := fun s => s
    currentMinor := 8
    ignoreCurrentVersion := false }

/-- Witness for C2's amended claim: on `computedContent` the parse pass
raises the computed-fields error and `update` propagates it. -/
theorem computed_fields_amended_witness :
    ([("slug", PyValue.vstr "my_task")] : TaskDef).lookup "slug" =
        some (.vstr "my_task") ∧
    ("my_task" : String) ≠ "" ∧
    parseModule "my_task" computedContent computedStmts =
      .error "Tasks that use computed fields must be updated manually." ∧
    updateFn ctxId computedContent computedStmts Option.none "my_task"
        [("slug", PyValue.vstr "my_task")] "" =
      .error "Tasks that use computed fields must be updated manually." :=
  ⟨rfl, by decide, rfl,
   computed_fields_amended.2.1 ctxId computedContent computedStmts Option.none
     "my_task" "my_task" [("slug", PyValue.vstr "my_task")] "" _
     rfl (by decide) rfl⟩

/-! ## Claim C7: identifier/slug coupling -/

/-- C7 counterexample: a declaration whose identifier `bar` differs
from its explicit slug `foo`, updated to the new slug `bar`. The claim
says the explicit slug argument is always kept for such a declaration;
the code drops it (because the identifier equals the NEW slug) and the
emitted identifier stays `bar`. -/
theorem slug_kept_counterexample :
    ("bar" : String) ≠ "foo" ∧
    ((slugCoupling "bar" "foo" "bar" [("slug", .vstr "bar")]).2.lookup "slug").isNone = true ∧
    (slugCoupling "bar" "foo" "bar" [("slug", .vstr "bar")]).1 = "bar" :=
  ⟨by decide, rfl, rfl⟩

theorem lookup_pop_self (td : TaskDef) (k : String) :
    (TaskDef.pop td k).lookup k = Option.none := by
  induction td with
  | nil => rfl
  | cons p rest ih =>
    obtain ⟨a, b⟩ := p
    unfold TaskDef.pop at *
    by_cases hk : a = k
    · simp only [List.filter_cons, hk]
      simp [ih]
    · simp only [List.filter_cons]
      rw [show (!(a = k : Bool)) = true by simp [hk]]
      simp only [List.lookup]
      rw [beq_eq_false_iff_ne.mpr (fun he => hk he.symm)]
      exact ih

/-- C7 amended: the explicit slug argument is dropped exactly when the
located identifier equals the old slug or the new slug (in which case
the emitted identifier becomes the new slug); otherwise the identifier
is kept and the slug key is left untouched. -/
theorem slug_coupling_amended (funcName slug newSlug : String) (td : TaskDef) :
    ((slugCoupling funcName slug newSlug td).1 =
      if funcName = slug ∨ funcName = newSlug then newSlug else funcName) ∧
    ((slugCoupling funcName slug newSlug td).2.lookup "slug" =
      if funcName = slug ∨ funcName = newSlug then Option.none
      else td.lookup "slug") := by
  by_cases h : funcName = slug ∨ funcName = newSlug
  · simp only [slugCoupling, if_pos h]
    constructor
    · trivial
    · exact lookup_pop_self td "slug"
  · simp only [slugCoupling, if_neg h]
    constructor
    · trivial
    · trivial

/-! ## Claim C8: parameter ordering and optional defaults -/

/-- C8: on an optional `configvar` parameter without an explicit
default, `_serialize_param_value(None, param)` evaluates
`"config" in None` and raises a `TypeError` instead of emitting the
promised `None` default (first conjunct); an optional parameter of any
other type does receive `= None`, in line with the source's own comment
(second conjunct). -/
theorem optional_configvar_default_crash :
    serializeParameters ctxId "" (Imports.add {} "airplane" Option.none)
      (some (.vlist (.ofList [.vdict (.ofList
        [(.vstr "slug", .vstr "c"), (.vstr "type", .vstr "configvar"),
         (.vstr "required", .vbool false)])]))) =
      .error "TypeError: argument is not iterable" ∧
    serializeParameters ctxId "" (Imports.add {} "airplane" Option.none)
      (some (.vlist (.ofList [.vdict (.ofList
        [(.vstr "slug", .vstr "c"), (.vstr "type", .vstr "shorttext"),
         (.vstr "required", .vbool false)])]))) =
      .ok ("c: Optional[str] = None",
        ⟨[("airplane", ⟨true, []⟩), ("typing", ⟨false, ["Optional"]⟩)]⟩) :=
  ⟨rfl, rfl⟩

/-! ## Claim C1: which declaration the Locator reports -/

/-- The same file as `c1Content` without the trailing helper
function. -/
def c1bContent : List Char :=
  "import airplane\n\n@airplane.task()\ndef my_task():\n    pass\n".toList

def c1bStmts : PyStmts := .ofList [
  .importStmt ["airplane"],
  .funcDef false "my_task" {}
    [.call (.attribute (.name "airplane" ⟨3, 1, 3, 9⟩) "task" ⟨3, 1, 3, 14⟩) [] ⟨3, 1, 3, 16⟩]
    (.cons (.other .nil) .nil) ⟨4, 0, 5, 8⟩]

/-- C1: `_generic_visit_func_def` assigns `func_name` and
`func_def_loc` before checking whether the declaration matches, and the
traversal keeps visiting statements after a match. On a file whose
matched `my_task` is followed by a plain `helper` function, the
reported identifier is `helper` and the reported header span
`(59, 71)` is `helper`'s, while the decorator span `(17, 33)` is still
`my_task`'s (first conjunct); without the trailing function the same
declaration is reported with its own identifier and header `(34, 47)`
(second conjunct). The claim's "regardless of how many other function
declarations appear ... after it" fails. -/
theorem locator_overwrites_after_match :
    parseModule "my_task" c1Content c1Stmts =
      .ok { currentClass := false
            imports := ⟨[("airplane", ⟨true, []⟩)]⟩
            decorator_loc := some ⟨17, 33⟩
            func_def_loc := some ⟨59, 71⟩
            func_name := some "helper"
            is_async := false } ∧
    parseModule "my_task" c1bContent c1bStmts =
      .ok { currentClass := false
            imports := ⟨[("airplane", ⟨true, []⟩)]⟩
            decorator_loc := some ⟨17, 33⟩
            func_def_loc := some ⟨34, 47⟩
            func_name := some "my_task"
            is_async := false } :=
  ⟨rfl, rfl⟩

/-! ## Claim C9: placement of the import-insertion point -/

/-- A file with two leading comment lines, a two-line module docstring,
then the decorated task:
line 1 `# a`, line 2 `# b`, lines 3-4 the docstring, line 5 the
decorator, line 6 `def f():`, line 7 the body. -/
def c9Content : List Char :=
  "# a\n# b\n\"\"\"D\nx\"\"\"\n@airplane.task()\ndef f():\n    pass".toList

def c9Stmts : PyStmts := .ofList [
  .other .nil,
  .funcDef false "f" {}
    [.call (.attribute (.name "airplane" ⟨5, 1, 5, 9⟩) "task" ⟨5, 1, 5, 14⟩) [] ⟨5, 1, 5, 16⟩]
    (.cons (.other .nil) .nil) ⟨6, 0, 7, 8⟩]

/-- C9: on `c9Content` the Locator computes decorator span `(18, 34)`
and header span `(35, 42)`, but `get_import_loc` — whose scan
`enumerate(lines, start=lineno)` walks the physical lines from the top
of the file while labelling them from the docstring-skip line — returns
offset 44, the start of the function BODY line. The three patches pass
`apply_updates`' non-overlap assertions for any replacement texts, so
the update succeeds while the import-insertion point lies strictly
after the start (and even the end) of both other spans, violating the
claimed invariant and splicing import text into the function body. -/
theorem import_loc_after_spans (a b c : List Char) :
    parseModule "f" c9Content c9Stmts =
      .ok { currentClass := false
            imports := ⟨[]⟩
            decorator_loc := some ⟨18, 34⟩
            func_def_loc := some ⟨35, 42⟩
            func_name := some "f"
            is_async := false } ∧
    getImportLoc c9Content (some "D\nx".toList) = .ok ⟨44, 44⟩ ∧
    (applyUpdates c9Content [(⟨18, 34⟩, a), (⟨35, 42⟩, b), (⟨44, 44⟩, c)]).isSome = true ∧
    (35 : Nat) < 44 ∧ (18 : Nat) < 44 :=
  ⟨rfl, rfl, rfl, by decide, by decide⟩

/-! ## Claim C10: the feasibility command never writes -/

/-- C10: `can_update` runs the probe and returns the file system
unchanged; the `update` command leaves the file system unchanged on any
failure, and on success writes exactly the fully produced new text to
the target file (the transformation itself only reads). -/
theorem commands_frame_effect (ctx : ExternalCtx) (pyParse : PyParseFn)
    (fs : FileSystem) (file slug : String) (td : TaskDef) (pv : String) :
    ((runCanUpdate ctx pyParse fs file slug).1 = fs) ∧
    (∀ e, (runUpdateCommand ctx pyParse fs file slug td pv).2 = some e →
      (runUpdateCommand ctx pyParse fs file slug td pv).1 = fs) ∧
    ((runUpdateCommand ctx pyParse fs file slug td pv).2 = Option.none →
      ∃ content stmts docs newText,
        fs file = some content ∧ pyParse content = .ok (stmts, docs) ∧
        updateFn ctx content stmts docs slug td pv = .ok newText ∧
        (runUpdateCommand ctx pyParse fs file slug td pv).1 =
          fs.write file newText) := by
  refine ⟨rfl, ?_, ?_⟩
  · intro e
    unfold runUpdateCommand
    cases hfs : fs file with
    | none => simp [bind, Except.bind, pure, Except.pure]
    | some content =>
      cases hp : pyParse content with
      | error msg => simp [bind, Except.bind, pure, Except.pure, hp]
      | ok sd =>
        cases hu : updateFn ctx content sd.1 sd.2 slug td pv with
        | error msg => simp [bind, Except.bind, pure, Except.pure, hp, hu]
        | ok newText => simp [bind, Except.bind, pure, Except.pure, hp, hu]
  · unfold runUpdateCommand
    cases hfs : fs file with
    | none => simp [bind, Except.bind, pure, Except.pure]
    | some content =>
      cases hp : pyParse content with
      | error msg => simp [bind, Except.bind, pure, Except.pure, hp]
      | ok sd =>
        cases hu : updateFn ctx content sd.1 sd.2 slug td pv with
        | error msg => simp [bind, Except.bind, pure, Except.pure, hp, hu]
        | ok newText =>
          intro _
          exact ⟨content, sd.1, sd.2, newText, rfl, by rw [hp], hu, by
            simp [bind, Except.bind, pure, Except.pure, hp, hu]⟩

/-- Witness for C10 at a concrete (empty) file system. -/
theorem commands_frame_effect_witness :
    (runCanUpdate ctxId (fun _ => .error "SyntaxError") (fun _ => Option.none)
      "main.py" "t").1 = (fun _ => Option.none) :=
  (commands_frame_effect ctxId (fun _ => .error "SyntaxError")
    (fun _ => Option.none) "main.py" "t" [] "").1

end Updater
